import Mathlib

/-!
CRT text animation (`src/main.js`).

A shallow embedding of the typewriter, layout, scanline, frame-driver and
fragment-shader code of `src/main.js`, followed by the properties stated for it.

Conventions of the embedding:

* a JavaScript string is the list of its UTF-16 code units (`List Char`); every
  line of the script in the source is ASCII, so code units and characters agree;
* JavaScript numbers that hold times, sizes and offsets are rationals (`ℚ`):
  exact arithmetic, no rounding;
* `performance.now()` is an input: each call site inside `update()` reads its own
  value from a `Clock`;
* a JavaScript exception is `none`.
-/

namespace CRT

/-! ## Constants (lines 4–20) -/

/-- Line 4. -/
def CHAR_DISPLAY_INTERVAL : ℚ := 100
/-- Line 5. -/
def LINE_BREAK_WAIT_TIME : ℚ := 500
/-- Line 7. -/
def DISTORTION_STRENGTH : ℚ := 2 / 10
/-- Line 10. -/
def MIN_FONT_SIZE : ℤ := 16
/-- Line 11. -/
def MAX_FONT_SIZE : ℤ := 20
/-- Line 12. -/
def FONT_PADDING : ℚ := 40
/-- Line 13: the literal `0.6`. -/
def FONT_WIDTH_RATIO : ℚ := 6 / 10
/-- Line 14: the literal `1.2`. -/
def LINE_HEIGHT_RATIO : ℚ := 12 / 10
/-- Line 16. -/
def SCAN_LINE_SPEED : ℚ := 2000
/-- Line 17. -/
def SCAN_LINE_DENSITY : ℚ := 100

/-- A JavaScript string: its sequence of code units. -/
abbrev JSString := List Char

/-! ## Typewriter (lines 115–191) -/

/-- The script of lines 117–148. -/
def displayTexts : List JSString :=
  [ "CRT Effect".toList,
    "created by Akkie314".toList,
    "".toList,
    "C:\\aki> dir".toList,
    "2025/09/05 <DIR> .".toList,
    "2025/09/05 <DIR> ..".toList,
    "2025/09/05 <DIR> profile".toList,
    "2025/09/05       message.txt".toList,
    "".toList,
    "C:\\aki> cd profile".toList,
    "".toList,
    "C:\\aki\\profile> type name.txt".toList,
    "Akkie314 (X: @aki_31415926)".toList,
    "".toList,
    "C:\\aki\\profile> type aff.txt".toList,
    "University student".toList,
    "".toList,
    "C:\\aki\\profile> type hobbies.txt".toList,
    "Bowling, creating things".toList,
    "".toList,
    "C:\\aki\\profile> cd ../".toList,
    "".toList,
    "C:\\aki> type message.txt".toList,
    "Thank you for watching!".toList,
    "I will continue to make new works.".toList,
    "".toList,
    "Looping back to the beginning.".toList,
    "---------- END ----------".toList,
    "               ".toList,
    "--------- START ---------".toList ]

/-- The module-level variables the typewriter part of `update()` reads and writes
(lines 115 and 159–164). -/
structure TypewriterState where
  textLines : List JSString
  lastUpdateTime : ℚ
  currentLineIndex : ℕ
  currentCharIndex : ℕ
  currentDisplayLine : JSString
  isWaitingForNewLine : Bool
  newLineWaitStartTime : ℚ
deriving DecidableEq

/-- The values of lines 115 and 159–164 before the first `update()`. -/
def TypewriterState.initial : TypewriterState where
  textLines := []
  lastUpdateTime := 0
  currentLineIndex := 0
  currentCharIndex := 0
  currentDisplayLine := []
  isWaitingForNewLine := false
  newLineWaitStartTime := 0

/-- The values `performance.now()` returns at its four call sites in one run of
`update()`: lines 170, 171, 185 and 189. -/
structure Clock where
  atIntervalCheck : ℚ
  atLastUpdate : ℚ
  atWaitStart : ℚ
  atWaitCheck : ℚ

/-- A tick during which every call of `performance.now()` returns `t`. -/
def Clock.allAt (t : ℚ) : Clock := ⟨t, t, t, t⟩

/-- The expression `currentLine[currentCharIndex]` as the right operand of `+=`
(line 176): the code unit at that index, or the text of `undefined` when the
index is out of range. -/
def charAt (currentLine : JSString) (i : ℕ) : JSString :=
  match currentLine[i]? with
  | some c => [c]
  | none => "undefined".toList

/-- Lines 170–187 of `update()`: the reveal branch. `none` is the `TypeError` of
reading `.length` of `undefined`, which is what `displayTexts[...]` is when the
script is empty. -/
def revealStep (script : List JSString) (now : Clock) (s : TypewriterState) :
    Option TypewriterState :=
  if !s.isWaitingForNewLine &&
      decide (now.atIntervalCheck - s.lastUpdateTime > CHAR_DISPLAY_INTERVAL) then
    match script[s.currentLineIndex % script.length]? with
    | none => none
    | some currentLine =>
      if s.currentCharIndex < currentLine.length then
        some { s with
          lastUpdateTime := now.atLastUpdate
          currentDisplayLine := s.currentDisplayLine ++ charAt currentLine s.currentCharIndex
          currentCharIndex := s.currentCharIndex + 1 }
      else
        some { s with
          lastUpdateTime := now.atLastUpdate
          textLines := s.textLines ++ [s.currentDisplayLine]
          currentDisplayLine := []
          currentCharIndex := 0
          currentLineIndex := s.currentLineIndex + 1
          isWaitingForNewLine := true
          newLineWaitStartTime := now.atWaitStart }
  else
    some s

/-- Lines 189–191 of `update()`: the end of the inter-line wait. -/
def waitStep (now : Clock) (s : TypewriterState) : TypewriterState :=
  if s.isWaitingForNewLine &&
      decide (now.atWaitCheck - s.newLineWaitStartTime > LINE_BREAK_WAIT_TIME) then
    { s with isWaitingForNewLine := false }
  else
    s

/-- Lines 170–191 of `update()`: what one tick does to the typewriter state. -/
def updateTypewriter (script : List JSString) (now : Clock) (s : TypewriterState) :
    Option TypewriterState :=
  (revealStep script now s).map (waitStep now)

/-- A sequence of ticks, one `Clock` per run of `update()`. -/
def runTicks (script : List JSString) : List Clock → TypewriterState → Option TypewriterState
  | [], s => some s
  | now :: rest, s => (updateTypewriter script now s).bind (runTicks script rest)

/-- A sequence of ticks in which tick `i` happens entirely at time `ts[i]`. -/
def runAt (script : List JSString) (ts : List ℚ) (s : TypewriterState) :
    Option TypewriterState :=
  runTicks script (ts.map Clock.allAt) s

/-- The states `update()` can reach from the initial values. -/
inductive Reachable (script : List JSString) : TypewriterState → Prop
  | initial : Reachable script TypewriterState.initial
  | tick {s s1 : TypewriterState} (now : Clock) :
      Reachable script s → updateTypewriter script now s = some s1 → Reachable script s1

/-- The script of the two-line scenario. -/
def scenarioScript : List JSString := ["AB".toList, "CD".toList]

/-- Tick times of the scenario: `0, 100, ..., 100 * n`. -/
def scenarioTicks (n : ℕ) : List ℚ := (List.range (n + 1)).map fun i => 100 * (i : ℚ)

/-- What holds of the typewriter state after every tick: one revealed line per
script line passed, each equal to its script line, and the line being typed is
the first `currentCharIndex` characters of the current script line. -/
structure Inv (script : List JSString) (s : TypewriterState) : Prop where
  length_eq : s.textLines.length = s.currentLineIndex
  revealed : ∀ k, k < s.textLines.length → s.textLines[k]? = script[k % script.length]?
  typed_part : ∀ line, script[s.currentLineIndex % script.length]? = some line →
      s.currentCharIndex ≤ line.length ∧ s.currentDisplayLine = line.take s.currentCharIndex

/-! ## Text layout (lines 150–157 and 193–214) -/

/-- Line 150: `Math.max(...displayTexts.map(text => text.length))`, for a script
with at least one line. -/
def maxTextLength (script : List JSString) : ℕ :=
  (script.map List.length).foldl max 0

/-- Lines 153–157. `canvas.width` is a non-negative integer. -/
def calculateFontSize (script : List JSString) (canvasWidth : ℕ) : ℤ :=
  let availableWidth : ℚ := (canvasWidth : ℚ) - FONT_PADDING
  let fontSize : ℤ := ⌊availableWidth / ((maxTextLength script : ℚ) * FONT_WIDTH_RATIO)⌋
  max MIN_FONT_SIZE (min fontSize MAX_FONT_SIZE)

/-- The method `Array.prototype.slice(start, end)`: a negative index counts from the end,
both indices are clamped to the array, and an empty range gives `[]`. -/
def jsSlice {α : Type} (xs : List α) (start stop : ℤ) : List α :=
  let len : ℤ := xs.length
  let k : ℤ := if start < 0 then max (len + start) 0 else min start len
  let final : ℤ := if stop < 0 then max (len + stop) 0 else min stop len
  (xs.drop k.toNat).take (final - k).toNat

/-- Lines 194–197: the revealed lines, then the line being typed when it has at
least one character. -/
def displayLines (s : TypewriterState) : List JSString :=
  s.textLines ++ (if s.currentDisplayLine.length > 0 then [s.currentDisplayLine] else [])

/-- Lines 203–206. `canvas.height` is a non-negative integer. -/
def maxVisibleLines (script : List JSString) (canvasWidth canvasHeight : ℕ) : ℤ :=
  let fontSize : ℤ := calculateFontSize script canvasWidth
  let lineHeight : ℚ := (fontSize : ℚ) * LINE_HEIGHT_RATIO
  ⌊((canvasHeight : ℚ) - (fontSize : ℚ) * 2) / lineHeight⌋

/-- Lines 208–212. -/
def scrollOffset (script : List JSString) (canvasWidth canvasHeight : ℕ)
    (s : TypewriterState) : ℤ :=
  if ((displayLines s).length : ℤ) > maxVisibleLines script canvasWidth canvasHeight then
    ((displayLines s).length : ℤ) - maxVisibleLines script canvasWidth canvasHeight
  else
    0

/-- Line 214: the first argument of the call of `fillText` on line 222. -/
def visibleLines (script : List JSString) (canvasWidth canvasHeight : ℕ)
    (s : TypewriterState) : List JSString :=
  jsSlice (displayLines s) (scrollOffset script canvasWidth canvasHeight s)
    (scrollOffset script canvasWidth canvasHeight s +
      maxVisibleLines script canvasWidth canvasHeight)

/-! ## Scanline (lines 237–249) -/

/-- Lines 239–242 of `scanLine()`: the new value of `scanLineOffset`. -/
def scanLine (canvasHeight : ℕ) (scanLineOffset : ℚ) : ℚ :=
  let moved : ℚ := scanLineOffset - (canvasHeight : ℚ) / SCAN_LINE_SPEED
  if moved > (canvasHeight : ℚ) / SCAN_LINE_DENSITY then 0 else moved

/-- The value of `scanLineOffset` after `calls` runs of `scanLine()`, from the
`0` of line 34. -/
def scanLineOffsetAfter (canvasHeight : ℕ) (calls : ℕ) : ℚ :=
  (scanLine canvasHeight)^[calls] 0

/-! ## Frame driver (lines 226–229 and 285–295) -/

/-- The calls a tick makes that the driver's properties are about. -/
inductive Effect where
  | render
  | requestAnimationFrame
  | consoleError
deriving DecidableEq

/-- The outcome of a piece of driver code: the calls made in order, the value of
`webglContextLost` afterwards, and whether an exception left the code. -/
structure Outcome where
  effects : List Effect
  webglContextLost : Bool
  threw : Bool
deriving DecidableEq

/-- Lines 226–229, the end of `update()`: `renderer.render` is called, then
`requestAnimationFrame(update)`. The code does not read `webglContextLost` and
has no `try`, so when `renderer.render` throws (`renderThrows`) the exception
leaves `update()` before line 229. -/
def updateDraw (renderThrows : Bool) (webglContextLost : Bool) : Outcome :=
  if renderThrows then
    { effects := [Effect.render], webglContextLost := webglContextLost, threw := true }
  else
    { effects := [Effect.render, Effect.requestAnimationFrame],
      webglContextLost := webglContextLost, threw := false }

/-- Lines 285–295, the `else` branch of the font check: the draw is skipped when
`webglContextLost` is set, and a throwing draw is caught, sets the flag and is
logged. -/
def fallbackDraw (renderThrows : Bool) (webglContextLost : Bool) : Outcome :=
  if !webglContextLost then
    if renderThrows then
      { effects := [Effect.render, Effect.consoleError], webglContextLost := true,
        threw := false }
    else
      { effects := [Effect.render], webglContextLost := webglContextLost, threw := false }
  else
    { effects := [], webglContextLost := webglContextLost, threw := false }

/-! ## One run of `update()` (lines 167–230) -/

/-- What one run of `update()` leaves behind: the typewriter state, the lines
handed to `fillText` on line 222, the scanline offset, and the outcome of the
draw of lines 226–229. -/
structure Frame where
  typewriter : TypewriterState
  fillTextLines : List JSString
  scanLineOffset : ℚ
  draw : Outcome

/-- The function `update()`: the typewriter step (lines 170–191), the layout and
`fillText` (lines 194–222), `scanLine()` (line 223) and the draw (lines 226–229).
`none` is the `TypeError` of the typewriter step, which ends the run there. -/
def update (script : List JSString) (canvasWidth canvasHeight : ℕ) (now : Clock)
    (renderThrows webglContextLost : Bool) (scanLineOffset : ℚ) (s : TypewriterState) :
    Option Frame :=
  (updateTypewriter script now s).map fun s1 =>
    { typewriter := s1
      fillTextLines := visibleLines script canvasWidth canvasHeight s1
      scanLineOffset := scanLine canvasHeight scanLineOffset
      draw := updateDraw renderThrows webglContextLost }

/-! ## Fragment shader (lines 58–86) -/

/-- A division of the shader; `none` when the divisor is zero. -/
def checkedDiv {F : Type} [Field F] [DecidableEq F] (a b : F) : Option F :=
  if b = 0 then none else some (a / b)

/-- Lines 62–63: `normalizedCoord` from `uv` and `aspect`. -/
def normalizeCoord {F : Type} [Field F] (aspect : F) (uv : F × F) : F × F :=
  ((uv.1 - 1 / 2) * 2 * aspect, (uv.2 - 1 / 2) * 2)

/-- Lines 65–79: `textureCoord` from `normalizedCoord`. The square root is a
parameter, so that the same code runs over the rationals with an approximate
root and is reasoned about over the reals with `Real.sqrt`. The result is `none`
when a division by zero is executed. -/
def distort {F : Type} [LinearOrderedField F] (sqrt : F → F) (strength aspect : F)
    (normalizedCoord : F × F) : Option (F × F) := do
  let r : F := sqrt (normalizedCoord.1 * normalizedCoord.1 + normalizedCoord.2 * normalizedCoord.2)
  let maxDistance : F := sqrt (aspect * aspect + 1)
  let normalizedR ← checkedDiv r maxDistance
  let distortedR : F := r * (1 + strength * normalizedR * normalizedR)
  let distortedCoord ←
    if r > 0 then
      (checkedDiv distortedR r).map fun k => (normalizedCoord.1 * k, normalizedCoord.2 * k)
    else
      some normalizedCoord
  let x ← checkedDiv distortedCoord.1 aspect
  pure (x / 2 + 1 / 2, distortedCoord.2 / 2 + 1 / 2)

/-- Lines 62–79: `textureCoord` from `uv`. -/
def textureCoord {F : Type} [LinearOrderedField F] (sqrt : F → F) (strength aspect : F)
    (uv : F × F) : Option (F × F) :=
  distort sqrt strength aspect (normalizeCoord aspect uv)

/-- Line 81: the test that sends a fragment to black. -/
def outsideTexture {F : Type} [LinearOrderedField F] (textureCoord : F × F) : Bool :=
  decide (textureCoord.1 < 0) || decide (textureCoord.1 > 1) ||
    decide (textureCoord.2 < 0) || decide (textureCoord.2 > 1)

/-! Properties -/


/-! ## The typewriter invariant -/

theorem inv_initial (script : List JSString) : Inv script TypewriterState.initial where
  length_eq := rfl
  revealed := by intro k hk; simp [TypewriterState.initial] at hk
  typed_part := by intro line _; simp [TypewriterState.initial]

theorem inv_revealStep {script : List JSString} {now : Clock} {s s1 : TypewriterState}
    (h : Inv script s) (hs : revealStep script now s = some s1) : Inv script s1 := by
  unfold revealStep at hs
  split at hs
  · split at hs
    · exact absurd hs (by simp)
    · rename_i currentLine hline
      obtain ⟨hle, hdisp⟩ := h.typed_part currentLine hline
      split at hs
      · rename_i hlt
        injection hs with hs
        subst hs
        refine ⟨h.length_eq, h.revealed, ?_⟩
        intro line hl
        simp only at hl ⊢
        rw [hline] at hl
        injection hl with hl
        subst hl
        refine ⟨hlt, ?_⟩
        rw [hdisp, charAt, List.getElem?_eq_getElem hlt]
        show List.take s.currentCharIndex currentLine ++ [currentLine[s.currentCharIndex]] = _
        rw [List.take_succ, List.getElem?_eq_getElem hlt]
        rfl
      · rename_i hge
        injection hs with hs
        subst hs
        have hlen : s.currentCharIndex = currentLine.length := by omega
        have hfull : s.currentDisplayLine = currentLine := by
          rw [hdisp, hlen, List.take_length]
        refine ⟨by simp [h.length_eq], ?_, ?_⟩
        · intro k hk
          simp only [List.length_append, List.length_singleton] at hk
          simp only
          by_cases hk1 : k < s.textLines.length
          · rw [List.getElem?_append_left hk1]
            exact h.revealed k hk1
          · have hk2 : k = s.textLines.length := by omega
            subst hk2
            rw [List.getElem?_append_right (le_refl _)]
            simp only [Nat.sub_self, List.getElem?_cons_zero]
            rw [h.length_eq, hline, hfull]
        · intro line _
          simp
  · injection hs with hs
    subst hs
    exact h

theorem inv_waitStep {script : List JSString} (now : Clock) {s : TypewriterState}
    (h : Inv script s) : Inv script (waitStep now s) := by
  unfold waitStep
  split
  · exact ⟨h.length_eq, h.revealed, h.typed_part⟩
  · exact h

theorem inv_updateTypewriter {script : List JSString} {now : Clock} {s s1 : TypewriterState}
    (h : Inv script s) (hs : updateTypewriter script now s = some s1) : Inv script s1 := by
  unfold updateTypewriter at hs
  cases hr : revealStep script now s with
  | none => simp [hr] at hs
  | some s2 =>
    simp only [hr, Option.map_some', Option.some.injEq] at hs
    subst hs
    exact inv_waitStep now (inv_revealStep h hr)

theorem reachable_inv {script : List JSString} {s : TypewriterState}
    (h : Reachable script s) : Inv script s := by
  induction h with
  | initial => exact inv_initial script
  | tick now _ hs ih => exact inv_updateTypewriter ih hs

theorem reachable_of_runTicks {script : List JSString} (clocks : List Clock) :
    ∀ {s s1 : TypewriterState}, Reachable script s → runTicks script clocks s = some s1 →
      Reachable script s1 := by
  induction clocks with
  | nil =>
    intro s s1 h hs
    simp only [runTicks, Option.some.injEq] at hs
    exact hs ▸ h
  | cons now rest ih =>
    intro s s1 h hs
    simp only [runTicks] at hs
    cases hu : updateTypewriter script now s with
    | none => simp [hu] at hs
    | some s2 =>
      simp only [hu, Option.some_bind] at hs
      exact ih (Reachable.tick now h hu) hs

/-- With a non-empty script a tick never throws. -/
theorem updateTypewriter_isSome (script : List JSString) (hne : script ≠ []) (now : Clock)
    (s : TypewriterState) : ∃ s1, updateTypewriter script now s = some s1 := by
  have hpos : 0 < script.length := List.length_pos.mpr hne
  have hlt : s.currentLineIndex % script.length < script.length := Nat.mod_lt _ hpos
  unfold updateTypewriter revealStep
  simp only [List.getElem?_eq_getElem hlt]
  split_ifs <;> exact ⟨_, rfl⟩

/-! ## Revealed lines (C1) and the character cursor (C2) -/

/-- C1. In every state reachable from the initial typewriter state by ticks of
`update()` with arbitrary clock readings, each entry `k` of `textLines` is the
script line of index `k mod n`, `n` the script length; in particular the entry
of index `n`, pushed right after the last script line, is the first script
line. -/
theorem revealedLines_follow_script (script : List JSString) (s : TypewriterState)
    (h : Reachable script s) :
    (∀ k, k < s.textLines.length →
      ∃ line, script[k % script.length]? = some line ∧ s.textLines[k]? = some line) ∧
    (script.length < s.textLines.length →
      ∃ line, script[0]? = some line ∧ s.textLines[script.length]? = some line) := by
  have hall : ∀ k, k < s.textLines.length →
      ∃ line, script[k % script.length]? = some line ∧ s.textLines[k]? = some line := by
    intro k hk
    refine ⟨s.textLines[k], ?_, List.getElem?_eq_getElem hk⟩
    rw [← (reachable_inv h).revealed k hk, List.getElem?_eq_getElem hk]
  refine ⟨hall, fun hn => ?_⟩
  have := hall script.length hn
  rwa [Nat.mod_self] at this

/-- The state of the two-line scenario right after its third line is pushed:
`"AB"`, `"CD"` and `"AB"` again. -/
theorem revealedLines_follow_script_witness :
    Reachable scenarioScript
      { textLines := ["AB".toList, "CD".toList, "AB".toList], lastUpdateTime := 2800,
        currentLineIndex := 3, currentCharIndex := 0, currentDisplayLine := [],
        isWaitingForNewLine := true, newLineWaitStartTime := 2800 } ∧
    ∃ line, scenarioScript[0]? = some line ∧
      ["AB".toList, "CD".toList, "AB".toList][scenarioScript.length]? = some line :=
  have hr : Reachable scenarioScript
      { textLines := ["AB".toList, "CD".toList, "AB".toList], lastUpdateTime := 2800,
        currentLineIndex := 3, currentCharIndex := 0, currentDisplayLine := [],
        isWaitingForNewLine := true, newLineWaitStartTime := 2800 } :=
    reachable_of_runTicks ((scenarioTicks 28).map Clock.allAt) Reachable.initial (by decide!)
  ⟨hr, (revealedLines_follow_script scenarioScript _ hr).2 (by decide)⟩

/-- C2. In every state reachable from the initial typewriter state by ticks of
`update()`, with a non-empty script, `currentCharIndex` is at most the length
of the script line `displayTexts[currentLineIndex % n]`; so whenever the guard
of the reveal branch holds, the read `currentLine[currentCharIndex]` finds a
character. -/
theorem charCursor_le_line_length (script : List JSString) (hne : script ≠ [])
    (s : TypewriterState) (h : Reachable script s) :
    ∃ row, script[s.currentLineIndex % script.length]? = some row ∧
      s.currentCharIndex ≤ row.length ∧
      (s.currentCharIndex < row.length →
        ∃ c, row[s.currentCharIndex]? = some c ∧ charAt row s.currentCharIndex = [c]) := by
  have hpos : 0 < script.length := List.length_pos.mpr hne
  have hlt : s.currentLineIndex % script.length < script.length := Nat.mod_lt _ hpos
  refine ⟨script[s.currentLineIndex % script.length], List.getElem?_eq_getElem hlt, ?_, ?_⟩
  · exact ((reachable_inv h).typed_part _ (List.getElem?_eq_getElem hlt)).1
  · intro hc
    exact ⟨_, List.getElem?_eq_getElem hc, by simp [charAt, List.getElem?_eq_getElem hc]⟩

/-- The two-line scenario after `"A"` has been typed: the cursor is `1`, the line
has length `2`. -/
theorem charCursor_le_line_length_witness :
    scenarioScript ≠ [] ∧
    ∃ row, scenarioScript[0 % scenarioScript.length]? = some row ∧ 1 ≤ row.length ∧
      (1 < row.length → ∃ c, row[1]? = some c ∧ charAt row 1 = [c]) :=
  ⟨by decide,
   charCursor_le_line_length scenarioScript (by decide)
    { textLines := [], lastUpdateTime := 200, currentLineIndex := 0, currentCharIndex := 1,
      currentDisplayLine := "A".toList, isWaitingForNewLine := false, newLineWaitStartTime := 0 }
    (reachable_of_runTicks ((scenarioTicks 2).map Clock.allAt) Reachable.initial (by decide!))⟩


/-! ## The two-line scenario (C3) -/

/-- C3, as stated, fails: with one tick at every multiple of 100 ms, after the
tick at `t = 100` the line being typed is still empty, not `"A"` (`100 - 0 > 100`
is false), and after the tick at `t = 200` no line is revealed yet (the line
being typed is `"A"`), not `["AB"]`. -/
theorem scenario_as_stated_fails :
    (runAt scenarioScript (scenarioTicks 1) TypewriterState.initial).map
        (fun s => s.currentDisplayLine) = some [] ∧
    (runAt scenarioScript (scenarioTicks 1) TypewriterState.initial).map
        (fun s => s.currentDisplayLine) ≠ some "A".toList ∧
    (runAt scenarioScript (scenarioTicks 2) TypewriterState.initial).map
        (fun s => (s.textLines, s.currentDisplayLine)) = some ([], "A".toList) ∧
    (runAt scenarioScript (scenarioTicks 2) TypewriterState.initial).map
        (fun s => (s.textLines, s.currentDisplayLine)) ≠ some (["AB".toList], []) := by
  decide!

/-- C3, amended. Script `["AB", "CD"]`, one tick at every multiple of 100 ms from
the initial state. A character is revealed only when more than 100 ms have passed
since `lastUpdateTime`, and a completed line is pushed by a tick of its own, so:
after the ticks at `t = 0` and `t = 100` nothing is revealed; at `t = 200` the
line being typed is `"A"`; at `t = 400` it is `"AB"`; at `t = 600` the line
completes (`textLines = ["AB"]`, the line being typed is empty, the wait begins);
the wait still holds after the tick at `t = 1100` and ends at `t = 1200`; at
`t = 1300` the line being typed is `"C"`; at `t = 1700` `textLines` is
`["AB", "CD"]` and the next line to be typed is `"AB"`. -/
theorem scenario_trace :
    runAt scenarioScript (scenarioTicks 0) TypewriterState.initial =
      some TypewriterState.initial ∧
    runAt scenarioScript (scenarioTicks 1) TypewriterState.initial =
      some TypewriterState.initial ∧
    runAt scenarioScript (scenarioTicks 2) TypewriterState.initial =
      some { textLines := [], lastUpdateTime := 200, currentLineIndex := 0,
             currentCharIndex := 1, currentDisplayLine := "A".toList,
             isWaitingForNewLine := false, newLineWaitStartTime := 0 } ∧
    runAt scenarioScript (scenarioTicks 4) TypewriterState.initial =
      some { textLines := [], lastUpdateTime := 400, currentLineIndex := 0,
             currentCharIndex := 2, currentDisplayLine := "AB".toList,
             isWaitingForNewLine := false, newLineWaitStartTime := 0 } ∧
    runAt scenarioScript (scenarioTicks 6) TypewriterState.initial =
      some { textLines := ["AB".toList], lastUpdateTime := 600, currentLineIndex := 1,
             currentCharIndex := 0, currentDisplayLine := [],
             isWaitingForNewLine := true, newLineWaitStartTime := 600 } ∧
    runAt scenarioScript (scenarioTicks 11) TypewriterState.initial =
      some { textLines := ["AB".toList], lastUpdateTime := 600, currentLineIndex := 1,
             currentCharIndex := 0, currentDisplayLine := [],
             isWaitingForNewLine := true, newLineWaitStartTime := 600 } ∧
    runAt scenarioScript (scenarioTicks 12) TypewriterState.initial =
      some { textLines := ["AB".toList], lastUpdateTime := 600, currentLineIndex := 1,
             currentCharIndex := 0, currentDisplayLine := [],
             isWaitingForNewLine := false, newLineWaitStartTime := 600 } ∧
    runAt scenarioScript (scenarioTicks 13) TypewriterState.initial =
      some { textLines := ["AB".toList], lastUpdateTime := 1300, currentLineIndex := 1,
             currentCharIndex := 1, currentDisplayLine := "C".toList,
             isWaitingForNewLine := false, newLineWaitStartTime := 600 } ∧
    runAt scenarioScript (scenarioTicks 17) TypewriterState.initial =
      some { textLines := ["AB".toList, "CD".toList], lastUpdateTime := 1700,
             currentLineIndex := 2, currentCharIndex := 0, currentDisplayLine := [],
             isWaitingForNewLine := true, newLineWaitStartTime := 1700 } ∧
    scenarioScript[2 % scenarioScript.length]? = some "AB".toList := by
  decide!

/-! ## The inter-line wait (C4) -/

/-- A tick that pushes a line leaves the typewriter waiting, with the wait
started at the time of the tick. -/
theorem push_enters_wait {script : List JSString} {t0 : ℚ} {s s1 : TypewriterState}
    (hpush : updateTypewriter script (Clock.allAt t0) s = some s1)
    (hlen : s1.textLines.length = s.textLines.length + 1) :
    s1.isWaitingForNewLine = true ∧ s1.newLineWaitStartTime = t0 := by
  unfold updateTypewriter revealStep at hpush
  split at hpush
  · split at hpush
    · simp at hpush
    · split at hpush
      · simp only [Option.map_some', Option.some.injEq] at hpush
        subst hpush
        unfold waitStep at hlen
        split at hlen <;> simp at hlen
      · simp only [Option.map_some', Option.some.injEq] at hpush
        subst hpush
        norm_num [waitStep, Clock.allAt, LINE_BREAK_WAIT_TIME]
  · simp only [Option.map_some', Option.some.injEq] at hpush
    subst hpush
    unfold waitStep at hlen
    split at hlen <;> simp at hlen

/-- A tick during the wait changes nothing at all. -/
theorem updateTypewriter_waiting (script : List JSString) {t0 t : ℚ} {s : TypewriterState}
    (hw : s.isWaitingForNewLine = true) (hs : s.newLineWaitStartTime = t0)
    (ht : t - t0 ≤ LINE_BREAK_WAIT_TIME) :
    updateTypewriter script (Clock.allAt t) s = some s := by
  have hnot : ¬ (t - s.newLineWaitStartTime > LINE_BREAK_WAIT_TIME) := by
    rw [hs]; exact not_lt.mpr ht
  simp [updateTypewriter, revealStep, waitStep, hw, Clock.allAt, hnot]

/-- Ticks during the wait change nothing at all. -/
theorem runAt_waiting (script : List JSString) {t0 : ℚ} {s : TypewriterState}
    (hw : s.isWaitingForNewLine = true) (hs : s.newLineWaitStartTime = t0) :
    ∀ ts : List ℚ, (∀ t ∈ ts, t - t0 ≤ LINE_BREAK_WAIT_TIME) → runAt script ts s = some s := by
  intro ts
  induction ts with
  | nil => intro _; rfl
  | cons t rest ih =>
    intro h
    have h1 := updateTypewriter_waiting script hw hs (h t (List.mem_cons_self _ _))
    have h2 := ih (fun u hu => h u (List.mem_cons_of_mem _ hu))
    simp only [runAt, List.map_cons, runTicks, h1, Option.some_bind] at h2 ⊢
    exact h2

/-- C4. Ticks at non-decreasing times `t0, before..., t`. If the tick at `t0`
pushes a completed line to `textLines`, then for every later tick, at a time `t`
with `t - t0 ≤ 500`, the ticks up to it run, and the tick at `t` leaves
`textLines`, `currentDisplayLine`, `currentLineIndex` and `currentCharIndex` as
they were before it, which is as the push left them. -/
theorem wait_reveals_nothing (script : List JSString) (s s1 : TypewriterState) (t0 : ℚ)
    (before : List ℚ) (t : ℚ)
    (hpush : updateTypewriter script (Clock.allAt t0) s = some s1)
    (hlen : s1.textLines.length = s.textLines.length + 1)
    (hmono : List.Pairwise (fun a b => a ≤ b) (t0 :: (before ++ [t])))
    (hwait : t - t0 ≤ LINE_BREAK_WAIT_TIME) :
    ∃ sb sa, runAt script before s1 = some sb ∧
      updateTypewriter script (Clock.allAt t) sb = some sa ∧
      sa.textLines = sb.textLines ∧ sa.currentDisplayLine = sb.currentDisplayLine ∧
      sa.currentLineIndex = sb.currentLineIndex ∧ sa.currentCharIndex = sb.currentCharIndex ∧
      sb.textLines = s1.textLines ∧ sb.currentDisplayLine = s1.currentDisplayLine ∧
      sb.currentLineIndex = s1.currentLineIndex ∧ sb.currentCharIndex = s1.currentCharIndex := by
  obtain ⟨hw, hs⟩ := push_enters_wait hpush hlen
  have hbefore : ∀ u ∈ before, u - t0 ≤ LINE_BREAK_WAIT_TIME := by
    intro u hu
    have hsorted := (List.pairwise_cons.mp hmono).2
    have hut : u ≤ t := (List.pairwise_append.mp hsorted).2.2 u hu t (List.mem_singleton_self t)
    linarith
  exact ⟨s1, s1, runAt_waiting script hw hs before hbefore,
    updateTypewriter_waiting script hw hs hwait, rfl, rfl, rfl, rfl, rfl, rfl, rfl, rfl⟩

/-- The two-line scenario: the tick at `t0 = 600` pushes `"AB"`; the ticks at
`700, 800, 900` and then `1100` (`1100 - 600 ≤ 500`) change nothing. -/
theorem wait_reveals_nothing_witness :
    updateTypewriter scenarioScript (Clock.allAt 600)
        { textLines := [], lastUpdateTime := 400, currentLineIndex := 0,
          currentCharIndex := 2, currentDisplayLine := "AB".toList,
          isWaitingForNewLine := false, newLineWaitStartTime := 0 } =
      some { textLines := ["AB".toList], lastUpdateTime := 600, currentLineIndex := 1,
             currentCharIndex := 0, currentDisplayLine := [],
             isWaitingForNewLine := true, newLineWaitStartTime := 600 } ∧
    List.Pairwise (fun a b : ℚ => a ≤ b) (600 :: ([700, 800, 900] ++ [1100])) ∧
    (1100 : ℚ) - 600 ≤ LINE_BREAK_WAIT_TIME ∧
    ∃ sb sa, runAt scenarioScript [700, 800, 900]
        { textLines := ["AB".toList], lastUpdateTime := 600, currentLineIndex := 1,
          currentCharIndex := 0, currentDisplayLine := [],
          isWaitingForNewLine := true, newLineWaitStartTime := 600 } = some sb ∧
      updateTypewriter scenarioScript (Clock.allAt 1100) sb = some sa ∧
      sa.textLines = sb.textLines ∧ sa.currentDisplayLine = sb.currentDisplayLine ∧
      sa.currentLineIndex = sb.currentLineIndex ∧ sa.currentCharIndex = sb.currentCharIndex ∧
      sb.textLines = ["AB".toList] ∧ sb.currentDisplayLine = [] ∧
      sb.currentLineIndex = 1 ∧ sb.currentCharIndex = 0 :=
  ⟨by decide!, by decide!, by decide!,
   wait_reveals_nothing scenarioScript
    { textLines := [], lastUpdateTime := 400, currentLineIndex := 0,
      currentCharIndex := 2, currentDisplayLine := "AB".toList,
      isWaitingForNewLine := false, newLineWaitStartTime := 0 }
    { textLines := ["AB".toList], lastUpdateTime := 600, currentLineIndex := 1,
      currentCharIndex := 0, currentDisplayLine := [],
      isWaitingForNewLine := true, newLineWaitStartTime := 600 }
    600 [700, 800, 900] 1100 (by decide!) (by decide) (by decide!) (by decide!)⟩


/-! ## Font size (C5) -/

/-- The width check of the font size: `maxTextLength * size * 0.6 ≤ W - 40`. -/
theorem fits_iff_le_floor (script : List JSString) (canvasWidth : ℕ)
    (hL : 0 < maxTextLength script) (size : ℤ) :
    (maxTextLength script : ℚ) * (size : ℚ) * FONT_WIDTH_RATIO ≤ (canvasWidth : ℚ) - FONT_PADDING ↔
      size ≤ ⌊((canvasWidth : ℚ) - FONT_PADDING) /
        ((maxTextLength script : ℚ) * FONT_WIDTH_RATIO)⌋ := by
  have hpos : (0 : ℚ) < (maxTextLength script : ℚ) * FONT_WIDTH_RATIO := by
    have : (0 : ℚ) < (maxTextLength script : ℚ) := by exact_mod_cast hL
    unfold FONT_WIDTH_RATIO
    positivity
  rw [Int.le_floor, le_div_iff₀ hpos]
  constructor <;> intro h <;> linarith

/-- C5. For every surface width `W` and a script whose longest line has
`maxTextLength > 0` characters, `calculateFontSize` returns a whole size in
`[16, 20]`; when some size of at least 16 satisfies
`maxTextLength * s * 0.6 ≤ W - 40`, the result satisfies it and is the largest
whole size in `[16, 20]` that does; when none does, the result is 16. -/
theorem calculateFontSize_is_largest_fitting (script : List JSString) (canvasWidth : ℕ)
    (hL : 0 < maxTextLength script) :
    MIN_FONT_SIZE ≤ calculateFontSize script canvasWidth ∧
    calculateFontSize script canvasWidth ≤ MAX_FONT_SIZE ∧
    ((∃ s : ℚ, 16 ≤ s ∧
        (maxTextLength script : ℚ) * s * FONT_WIDTH_RATIO ≤ (canvasWidth : ℚ) - FONT_PADDING) →
      (maxTextLength script : ℚ) * (calculateFontSize script canvasWidth : ℚ) * FONT_WIDTH_RATIO
          ≤ (canvasWidth : ℚ) - FONT_PADDING ∧
      ∀ s : ℤ, 16 ≤ s → s ≤ 20 →
        (maxTextLength script : ℚ) * (s : ℚ) * FONT_WIDTH_RATIO ≤ (canvasWidth : ℚ) - FONT_PADDING →
        s ≤ calculateFontSize script canvasWidth) ∧
    ((¬ ∃ s : ℚ, 16 ≤ s ∧
        (maxTextLength script : ℚ) * s * FONT_WIDTH_RATIO ≤ (canvasWidth : ℚ) - FONT_PADDING) →
      calculateFontSize script canvasWidth = 16) := by
  have hLq : (0 : ℚ) < (maxTextLength script : ℚ) := by exact_mod_cast hL
  have h16 : (∃ s : ℚ, 16 ≤ s ∧
        (maxTextLength script : ℚ) * s * FONT_WIDTH_RATIO ≤ (canvasWidth : ℚ) - FONT_PADDING) ↔
      (16 : ℤ) ≤ ⌊((canvasWidth : ℚ) - FONT_PADDING) /
        ((maxTextLength script : ℚ) * FONT_WIDTH_RATIO)⌋ := by
    rw [← fits_iff_le_floor script canvasWidth hL 16]
    constructor
    · rintro ⟨s, hs, hfit⟩
      have hmono : (maxTextLength script : ℚ) * ((16 : ℤ) : ℚ) * FONT_WIDTH_RATIO ≤
          (maxTextLength script : ℚ) * s * FONT_WIDTH_RATIO := by
        unfold FONT_WIDTH_RATIO
        have : (maxTextLength script : ℚ) * ((16 : ℤ) : ℚ) ≤ (maxTextLength script : ℚ) * s :=
          mul_le_mul_of_nonneg_left (by push_cast; exact hs) hLq.le
        nlinarith
      exact hmono.trans hfit
    · intro h
      exact ⟨16, le_refl _, by simpa using h⟩
  have hval : calculateFontSize script canvasWidth =
      max 16 (min ⌊((canvasWidth : ℚ) - FONT_PADDING) /
        ((maxTextLength script : ℚ) * FONT_WIDTH_RATIO)⌋ 20) := rfl
  refine ⟨?_, ?_, ?_, ?_⟩
  · rw [hval]; exact le_max_left _ _
  · rw [hval]; exact max_le (by decide) (min_le_right _ _)
  · intro hex
    have hf := h16.mp hex
    have hr : calculateFontSize script canvasWidth =
        min ⌊((canvasWidth : ℚ) - FONT_PADDING) /
          ((maxTextLength script : ℚ) * FONT_WIDTH_RATIO)⌋ 20 := by
      rw [hval]; exact max_eq_right (le_min hf (by decide))
    refine ⟨?_, ?_⟩
    · rw [fits_iff_le_floor script canvasWidth hL, hr]
      exact min_le_left _ _
    · intro s _ hs20 hfit
      rw [hr]
      exact le_min ((fits_iff_le_floor script canvasWidth hL s).mp hfit) hs20
  · intro hno
    have hf : ¬ (16 : ℤ) ≤ ⌊((canvasWidth : ℚ) - FONT_PADDING) /
        ((maxTextLength script : ℚ) * FONT_WIDTH_RATIO)⌋ := fun h => hno (h16.mpr h)
    rw [hval]
    exact max_eq_left ((min_le_left _ _).trans (not_le.mp hf).le)

/-- The script of the source on a surface 400 pixels wide: the size is 17. -/
theorem calculateFontSize_is_largest_fitting_witness :
    0 < maxTextLength displayTexts ∧
    MIN_FONT_SIZE ≤ calculateFontSize displayTexts 400 ∧
    calculateFontSize displayTexts 400 ≤ MAX_FONT_SIZE ∧
    calculateFontSize displayTexts 400 = 17 :=
  ⟨by decide,
   (calculateFontSize_is_largest_fitting displayTexts 400 (by decide)).1,
   (calculateFontSize_is_largest_fitting displayTexts 400 (by decide)).2.1,
   by decide!⟩

/-! ## Visible window (C8) -/

/-- The slice of lines 208–214 is the tail of the list. -/
theorem jsSlice_tail {α : Type} (xs : List α) (v : ℤ) :
    jsSlice xs (if (xs.length : ℤ) > v then (xs.length : ℤ) - v else 0)
        ((if (xs.length : ℤ) > v then (xs.length : ℤ) - v else 0) + v) =
      xs.drop (xs.length - (min (xs.length : ℤ) v).toNat) := by
  have key : ∀ a b : ℕ, a = xs.length - (min (xs.length : ℤ) v).toNat → xs.length - a ≤ b →
      (xs.drop a).take b = xs.drop (xs.length - (min (xs.length : ℤ) v).toNat) := by
    intro a b ha hb
    subst ha
    exact List.take_of_length_le (by rw [List.length_drop]; exact hb)
  unfold jsSlice
  simp only []
  apply key
  · split_ifs <;> omega
  · split_ifs <;> omega

/-- C8. For every typewriter state and every surface width and height (the
script having a non-empty line), write `lines` for the revealed lines followed
by the line in progress (present once it has a character), `total` for their
number and `visibleCount = floor((H - 2 * fontSize) / (fontSize * 1.2))`. Then
`scrollOffset` is `total - visibleCount` when `total > visibleCount` and `0`
otherwise, and the lines passed to `fillText` are the last
`min(total, visibleCount)` of `lines`, in order. -/
theorem visibleLines_is_trailing_window (script : List JSString) (canvasWidth canvasHeight : ℕ)
    (s : TypewriterState) (hL : 0 < maxTextLength script) :
    ∃ (visibleCount : ℤ) (lines : List JSString),
      visibleCount = ⌊((canvasHeight : ℚ) - 2 * (calculateFontSize script canvasWidth : ℚ)) /
        ((calculateFontSize script canvasWidth : ℚ) * (12 / 10))⌋ ∧
      lines = s.textLines ++ (if s.currentDisplayLine = [] then [] else [s.currentDisplayLine]) ∧
      scrollOffset script canvasWidth canvasHeight s =
        (if (lines.length : ℤ) > visibleCount then (lines.length : ℤ) - visibleCount else 0) ∧
      visibleLines script canvasWidth canvasHeight s =
        lines.drop (lines.length - (min (lines.length : ℤ) visibleCount).toNat) ∧
      (visibleLines script canvasWidth canvasHeight s).length =
        (min (lines.length : ℤ) visibleCount).toNat := by
  have _ := hL
  have hlines : displayLines s =
      s.textLines ++ (if s.currentDisplayLine = [] then [] else [s.currentDisplayLine]) := by
    unfold displayLines
    cases h : s.currentDisplayLine <;> simp
  have hcount : maxVisibleLines script canvasWidth canvasHeight =
      ⌊((canvasHeight : ℚ) - 2 * (calculateFontSize script canvasWidth : ℚ)) /
        ((calculateFontSize script canvasWidth : ℚ) * (12 / 10))⌋ := by
    unfold maxVisibleLines LINE_HEIGHT_RATIO
    simp only [mul_comm]
  have hvis : visibleLines script canvasWidth canvasHeight s =
      (displayLines s).drop ((displayLines s).length -
        (min ((displayLines s).length : ℤ) (maxVisibleLines script canvasWidth canvasHeight)).toNat) := by
    unfold visibleLines scrollOffset
    exact jsSlice_tail _ _
  refine ⟨maxVisibleLines script canvasWidth canvasHeight, displayLines s, hcount, hlines, rfl,
    hvis, ?_⟩
  rw [hvis, List.length_drop]
  omega

/-- The script of the source on a 400 × 100 surface (font size 17, three visible
lines), with four revealed lines and `"E"` in progress: `fillText` gets the last
three of the five lines. -/
theorem visibleLines_is_trailing_window_witness :
    0 < maxTextLength displayTexts ∧
    visibleLines displayTexts 400 100
      { textLines := ["A".toList, "B".toList, "C".toList, "D".toList], lastUpdateTime := 0,
        currentLineIndex := 4, currentCharIndex := 1, currentDisplayLine := "E".toList,
        isWaitingForNewLine := false, newLineWaitStartTime := 0 } =
      ["C".toList, "D".toList, "E".toList] ∧
    ∃ (visibleCount : ℤ) (lines : List JSString),
      visibleCount = ⌊((100 : ℕ) - 2 * (calculateFontSize displayTexts 400 : ℚ)) /
        ((calculateFontSize displayTexts 400 : ℚ) * (12 / 10))⌋ ∧
      lines = ["A".toList, "B".toList, "C".toList, "D".toList] ++
        (if "E".toList = [] then [] else ["E".toList]) ∧
      scrollOffset displayTexts 400 100
        { textLines := ["A".toList, "B".toList, "C".toList, "D".toList], lastUpdateTime := 0,
          currentLineIndex := 4, currentCharIndex := 1, currentDisplayLine := "E".toList,
          isWaitingForNewLine := false, newLineWaitStartTime := 0 } =
        (if (lines.length : ℤ) > visibleCount then (lines.length : ℤ) - visibleCount else 0) ∧
      visibleLines displayTexts 400 100
        { textLines := ["A".toList, "B".toList, "C".toList, "D".toList], lastUpdateTime := 0,
          currentLineIndex := 4, currentCharIndex := 1, currentDisplayLine := "E".toList,
          isWaitingForNewLine := false, newLineWaitStartTime := 0 } =
        lines.drop (lines.length - (min (lines.length : ℤ) visibleCount).toNat) ∧
      (visibleLines displayTexts 400 100
        { textLines := ["A".toList, "B".toList, "C".toList, "D".toList], lastUpdateTime := 0,
          currentLineIndex := 4, currentCharIndex := 1, currentDisplayLine := "E".toList,
          isWaitingForNewLine := false, newLineWaitStartTime := 0 }).length =
        (min (lines.length : ℤ) visibleCount).toNat :=
  ⟨by decide, by decide!,
   visibleLines_is_trailing_window displayTexts 400 100
    { textLines := ["A".toList, "B".toList, "C".toList, "D".toList], lastUpdateTime := 0,
      currentLineIndex := 4, currentCharIndex := 1, currentDisplayLine := "E".toList,
      isWaitingForNewLine := false, newLineWaitStartTime := 0 } (by decide)⟩


/-! ## Scanline offset (C7) -/

theorem scanLineOffsetAfter_succ (canvasHeight calls : ℕ) :
    scanLineOffsetAfter canvasHeight (calls + 1) =
      scanLine canvasHeight (scanLineOffsetAfter canvasHeight calls) := by
  unfold scanLineOffsetAfter
  exact Function.iterate_succ_apply' _ _ _

/-- C7 fails on the code. From offset `0` the offset after `calls` runs of
`scanLine()` is `-(calls * H / 2000)`: the test `scanLineOffset > H / 100` of
line 240 is never true, the offset is never put back to `0`, and for a positive
height it is negative after every call, so outside `[0, H / 100)`. -/
theorem scanLineOffset_never_wraps (canvasHeight calls : ℕ) :
    scanLineOffsetAfter canvasHeight calls =
        -((calls : ℚ) * (canvasHeight : ℚ) / SCAN_LINE_SPEED) ∧
    scanLineOffsetAfter (canvasHeight + 1) (calls + 1) < 0 ∧
    scanLineOffsetAfter 600 1 = -3 / 10 := by
  have hval : ∀ (h n : ℕ), scanLineOffsetAfter h n = -((n : ℚ) * (h : ℚ) / SCAN_LINE_SPEED) := by
    intro h n
    induction n with
    | zero => simp [scanLineOffsetAfter]
    | succ n ih =>
      have hh : (0 : ℚ) ≤ (h : ℚ) := Nat.cast_nonneg h
      have hn : (0 : ℚ) ≤ (n : ℚ) := Nat.cast_nonneg n
      have hnh : (0 : ℚ) ≤ (n : ℚ) * (h : ℚ) := mul_nonneg hn hh
      rw [scanLineOffsetAfter_succ, ih]
      unfold scanLine SCAN_LINE_SPEED SCAN_LINE_DENSITY
      have hno : ¬ (-((n : ℚ) * (h : ℚ) / 2000) - (h : ℚ) / 2000 > (h : ℚ) / 100) := by
        rw [gt_iff_lt, not_lt]
        linarith
      simp only [hno, if_false]
      push_cast
      ring
  refine ⟨hval canvasHeight calls, ?_, ?_⟩
  · rw [hval]
    have h1 : (0 : ℚ) < ((calls + 1 : ℕ) : ℚ) := by exact_mod_cast Nat.succ_pos calls
    have h2 : (0 : ℚ) < ((canvasHeight + 1 : ℕ) : ℚ) := by exact_mod_cast Nat.succ_pos canvasHeight
    have h3 : (0 : ℚ) < ((calls + 1 : ℕ) : ℚ) * ((canvasHeight + 1 : ℕ) : ℚ) / SCAN_LINE_SPEED := by
      unfold SCAN_LINE_SPEED
      positivity
    linarith
  · rw [hval]
    norm_num [SCAN_LINE_SPEED]

/-! ## Frame driver (C9) -/

/-- C9 fails on the code. The end of `update()` calls `renderer.render` also when
`webglContextLost` is set; when the call throws, the exception leaves `update()`,
`requestAnimationFrame` is not called and the flag is not set. The guarded draw
the claim describes is the one of the fallback branch (lines 285–295), which is
not part of the loop. The last two parts run `update()` on an 800 × 600 surface
at `t = 200`: with the context lost the draw is made, and a throwing draw ends
the run without rescheduling. -/
theorem update_draw_is_unguarded :
    (∀ renderThrows : Bool, Effect.render ∈ (updateDraw renderThrows true).effects) ∧
    (∀ lost : Bool, (updateDraw true lost).threw = true ∧
      Effect.requestAnimationFrame ∉ (updateDraw true lost).effects ∧
      (updateDraw true lost).webglContextLost = lost) ∧
    (∀ renderThrows : Bool, (fallbackDraw renderThrows true).effects = []) ∧
    fallbackDraw true false =
      { effects := [Effect.render, Effect.consoleError], webglContextLost := true,
        threw := false } ∧
    (update displayTexts 800 600 (Clock.allAt 200) false true 0 TypewriterState.initial).map
        (fun frame => frame.draw.effects) =
      some [Effect.render, Effect.requestAnimationFrame] ∧
    (update displayTexts 800 600 (Clock.allAt 200) true false 0 TypewriterState.initial).map
        (fun frame => (frame.draw.effects, frame.draw.webglContextLost, frame.draw.threw)) =
      some ([Effect.render], false, true) := by
  refine ⟨by decide, by decide, by decide, by decide, by decide!, by decide!⟩

/-! ## Fragment shader (C6, C10) -/

/-- The texture coordinate of a point on the circle of radius `maxDistance`. -/
theorem distort_on_max_radius (strength a : ℝ) (ha : 0 < a) (p : ℝ × ℝ)
    (hlen : Real.sqrt (p.1 * p.1 + p.2 * p.2) = Real.sqrt (a * a + 1)) :
    distort Real.sqrt strength a p =
      some (p.1 * (1 + strength) / a / 2 + 1 / 2, p.2 * (1 + strength) / 2 + 1 / 2) := by
  have hm : 0 < Real.sqrt (a * a + 1) := Real.sqrt_pos.mpr (by positivity)
  have hm0 : Real.sqrt (a * a + 1) ≠ 0 := hm.ne'
  have ha0 : a ≠ 0 := ha.ne'
  have hk : Real.sqrt (a * a + 1) *
      (1 + strength * (Real.sqrt (a * a + 1) / Real.sqrt (a * a + 1)) *
        (Real.sqrt (a * a + 1) / Real.sqrt (a * a + 1))) / Real.sqrt (a * a + 1) =
      1 + strength := by
    field_simp
  unfold distort
  rw [hlen]
  simp only [checkedDiv, hm0, ha0, if_false, gt_iff_lt, hm, if_true, Option.map_some',
    Option.bind_eq_bind, Option.some_bind, Option.pure_def, hk]

/-- C6. Over the reals, for every aspect ratio `a > 0` and every aspect-corrected
point whose length is `maxDistance = sqrt(a² + 1)`, the shader's mapping with
strength 0.2 divides by no zero and gives a texture coordinate at or outside the
boundary of `[0,1]²`; it is in fact strictly outside, so the test of line 81
makes the fragment black. -/
theorem max_radius_maps_outside (a : ℝ) (ha : 0 < a) (normalizedCoord : ℝ × ℝ)
    (hlen : Real.sqrt (normalizedCoord.1 * normalizedCoord.1 +
      normalizedCoord.2 * normalizedCoord.2) = Real.sqrt (a * a + 1)) :
    ∃ tc : ℝ × ℝ,
      distort Real.sqrt ((DISTORTION_STRENGTH : ℚ) : ℝ) a normalizedCoord = some tc ∧
      (tc.1 ≤ 0 ∨ 1 ≤ tc.1 ∨ tc.2 ≤ 0 ∨ 1 ≤ tc.2) ∧
      outsideTexture tc = true := by
  have hsq : normalizedCoord.1 * normalizedCoord.1 + normalizedCoord.2 * normalizedCoord.2 =
      a * a + 1 :=
    (Real.sqrt_inj (add_nonneg (mul_self_nonneg _) (mul_self_nonneg _))
      (by positivity)).mp hlen
  have hstrict : ∀ x y : ℝ, x * x + y * y = a * a + 1 →
      x * (1 + 2 / 10) / a / 2 + 1 / 2 < 0 ∨ 1 < x * (1 + 2 / 10) / a / 2 + 1 / 2 ∨
      y * (1 + 2 / 10) / 2 + 1 / 2 < 0 ∨ 1 < y * (1 + 2 / 10) / 2 + 1 / 2 := by
    intro x y hxy
    by_contra hcon
    simp only [not_or, not_lt] at hcon
    obtain ⟨h1, h2, h3, h4⟩ := hcon
    have hx : x * (1 + 2 / 10) / a / 2 = (12 / 10 * x) / (2 * a) := by
      field_simp
      ring
    rw [hx] at h1 h2
    have h2a : (0 : ℝ) < 2 * a := by linarith
    have h1' : -(1 / 2) ≤ (12 / 10 * x) / (2 * a) := by linarith
    have h2' : (12 / 10 * x) / (2 * a) ≤ 1 / 2 := by linarith
    rw [le_div_iff₀ h2a] at h1'
    rw [div_le_iff₀ h2a] at h2'
    have hxa : (12 / 10 * x) * (12 / 10 * x) ≤ a * a := by nlinarith
    have hy1 : (12 / 10 * y) * (12 / 10 * y) ≤ 1 := by nlinarith
    nlinarith
  refine ⟨_, distort_on_max_radius _ a ha normalizedCoord hlen, ?_, ?_⟩
  · have := hstrict normalizedCoord.1 normalizedCoord.2 hsq
    simp only [DISTORTION_STRENGTH]
    push_cast
    rcases this with h | h | h | h
    · exact Or.inl h.le
    · exact Or.inr (Or.inl h.le)
    · exact Or.inr (Or.inr (Or.inl h.le))
    · exact Or.inr (Or.inr (Or.inr h.le))
  · have := hstrict normalizedCoord.1 normalizedCoord.2 hsq
    simp only [outsideTexture, DISTORTION_STRENGTH, Bool.or_eq_true, decide_eq_true_eq]
    push_cast
    rcases this with h | h | h | h
    · exact Or.inl (Or.inl (Or.inl h))
    · exact Or.inl (Or.inl (Or.inr h))
    · exact Or.inl (Or.inr h)
    · exact Or.inr h

/-- The corner `uv = (1, 1)` of a square surface: `normalizedCoord = (1, 1)`,
of length `sqrt 2 = maxDistance`. -/
theorem max_radius_maps_outside_witness :
    (0 : ℝ) < 1 ∧
    Real.sqrt ((1 : ℝ) * 1 + 1 * 1) = Real.sqrt (1 * 1 + 1) ∧
    ∃ tc : ℝ × ℝ,
      distort Real.sqrt ((DISTORTION_STRENGTH : ℚ) : ℝ) 1 ((1 : ℝ), (1 : ℝ)) = some tc ∧
      (tc.1 ≤ 0 ∨ 1 ≤ tc.1 ∨ tc.2 ≤ 0 ∨ 1 ≤ tc.2) ∧
      outsideTexture tc = true :=
  ⟨one_pos, by norm_num,
   max_radius_maps_outside 1 one_pos ((1 : ℝ), (1 : ℝ)) (by norm_num)⟩

/-- C10. Over the reals, for every aspect ratio `a > 0` and every strength, the
shader's mapping sends `uv = (0.5, 0.5)`, whose `normalizedCoord` is `(0, 0)`,
through the `else` branch of the guard `r > 0` to the texture coordinate
`(0.5, 0.5)`, and no division by zero is executed. -/
theorem center_is_fixed (a strength : ℝ) (ha : 0 < a) :
    normalizeCoord a ((1 / 2 : ℝ), (1 / 2 : ℝ)) = (0, 0) ∧
    ¬ (Real.sqrt ((0 : ℝ) * 0 + 0 * 0) > 0) ∧
    textureCoord Real.sqrt strength a ((1 / 2 : ℝ), (1 / 2 : ℝ)) =
      some ((1 / 2 : ℝ), (1 / 2 : ℝ)) := by
  have hm : 0 < Real.sqrt (a * a + 1) := Real.sqrt_pos.mpr (by positivity)
  have hn : normalizeCoord a ((1 / 2 : ℝ), (1 / 2 : ℝ)) = (0, 0) := by
    simp [normalizeCoord]
  refine ⟨hn, by simp, ?_⟩
  unfold textureCoord
  rw [hn]
  unfold distort
  simp [checkedDiv, hm.ne', ha.ne']

/-- A square surface, strength 0.2. -/
theorem center_is_fixed_witness :
    (0 : ℝ) < 1 ∧
    textureCoord Real.sqrt (2 / 10) 1 ((1 / 2 : ℝ), (1 / 2 : ℝ)) =
      some ((1 / 2 : ℝ), (1 / 2 : ℝ)) :=
  ⟨one_pos, (center_is_fixed 1 (2 / 10) one_pos).2.2⟩

end CRT
